import Mathlib

/-!
Shallow embedding of `src/orchestrator.py` (a voice-capture front end:
`WhisperRecognizer` records a fixed-length window of microphone audio,
normalizes it and hands it to a transcription model; `SpeechHandler`
wraps a recognizer and adds logging).

Modelling conventions:
* A Python expression that may raise is modelled as `Except String α`
  (the `String` is the exception message).
* The capture device and the transcription model are opaque external
  collaborators; their behaviour is a parameter of every definition
  (`openRes` for `audio.open`, `reads` for `stream.read`, `tr` for
  `model.transcribe(...)["text"]`).
* Machine numbers are `ℤ` (int16 samples) and `ℚ` (Python floats such
  as `record_seconds` and the normalized float32 samples; the divisions
  performed by the source are exact at these magnitudes).
* The `logging` module's process-wide logger named "SpeechHandler" is a
  `LoggerState` value threaded explicitly; numeric levels follow the
  `logging` module (INFO = 20, ERROR = 40, default WARNING = 30).
-/

namespace Orchestrator

/-- Python `int(q)`: truncation toward zero of a real number, here on `ℚ`. -/
def pyInt (q : ℚ) : ℤ :=
  Int.sign q.num * (q.num.natAbs / q.den : ℕ)

/-- Python `str.strip()` helper: drop leading whitespace characters. -/
def stripLeading : List Char → List Char
  | [] => []
  | c :: cs => if c.isWhitespace then stripLeading cs else c :: cs

/-- Python `str.strip()`: drop whitespace from both ends (line 77 `result["text"].strip()`). -/
def pyStrip (s : String) : String :=
  ⟨(stripLeading ((stripLeading s.data).reverse)).reverse⟩

/-- `np.concatenate(frames)`: raises `ValueError` on an empty list of
arrays, otherwise concatenates (line 63). -/
def npConcatenate (frames : List (List ℤ)) : Except String (List ℤ) :=
  match frames with
  | [] => Except.error "need at least one array to concatenate"
  | f :: fs => Except.ok (List.flatten (f :: fs))

/-- `.astype(np.float32) / 32768.0` (line 63): int16 samples to
normalized floats.  Division of an int16 value by `2^15` is exact in
float32, so `ℚ` represents it faithfully. -/
def normalizeAudio (samples : List ℤ) : List ℚ :=
  samples.map fun (s : ℤ) => (s : ℚ) / 32768

/-- Loop bound of `_record_audio` (line 54):
`range(0, int(self.RATE / self.CHUNK * self.RECORD_SECONDS))`, where
`/` is Python float (true) division.  A non-positive bound yields an
empty range, hence `Int.toNat`. -/
def loopCount (rate chunk : ℕ) (d : ℚ) : ℕ :=
  (pyInt ((rate : ℚ) / (chunk : ℚ) * d)).toNat

/-- The chunk-reading loop of `_record_audio` (lines 53-60) given the
loop bound `n`: each `stream.read` is attempted; a raising read is
caught, printed to the console and skipped (`continue`), so `frames`
keeps exactly the successful chunks, in order. -/
def recordFrames (reads : ℕ → Except String (List ℤ)) (n : ℕ) : List (List ℤ) :=
  (List.range n).filterMap fun i => (reads i).toOption

/-- Body of `_record_audio` after the stream exists (lines 53-64):
read chunks, concatenate (which raises on an empty frame list) and
normalize.  The result is the value returned, or the exception raised,
by `_record_audio`. -/
def recordLoop (rate chunk : ℕ) (d : ℚ)
    (reads : ℕ → Except String (List ℤ)) : Except String (List ℚ) :=
  match npConcatenate (recordFrames reads (loopCount rate chunk d)) with
  | Except.error e => Except.error e
  | Except.ok samples => Except.ok (normalizeAudio samples)

/-- `WhisperRecognizer._record_audio` (lines 42-64) including the lazy
stream opening (lines 44-51).  State `st` is `self.stream` (a handle,
or `none`); the returned triple is (result or exception, new stream
state, number of `audio.open` calls performed).  A raising
`audio.open` is not caught inside `_record_audio` and leaves
`self.stream` as `None`. -/
def recordAudio (rate chunk : ℕ) (d : ℚ) (openRes : Except String ℕ)
    (reads : ℕ → Except String (List ℤ)) (st : Option ℕ) :
    Except String (List ℚ) × Option ℕ × ℕ :=
  match st with
  | none =>
    match openRes with
    | Except.error e => (Except.error e, none, 1)
    | Except.ok h => (recordLoop rate chunk d reads, some h, 1)
  | some h => (recordLoop rate chunk d reads, some h, 0)

/-- Keyword options fixed by `model.transcribe(...)` in `listen`
(lines 71-76). -/
structure TranscribeOpts where
  fp16 : Bool
  language : String
  initial_prompt : String
deriving DecidableEq

/-- The options `WhisperRecognizer.listen` always passes (lines 73-75):
`fp16=False`, `language='en'`, `initial_prompt="stop listening"`. -/
def listenOpts : TranscribeOpts :=
  { fp16 := false, language := "en", initial_prompt := "stop listening" }

/-- The `try` block of `WhisperRecognizer.listen` (lines 68-79): record,
transcribe with the fixed options, strip the text.  `tr` models
`self.model.transcribe(...)["text"]` (a missing `"text"` key is just
another exception). -/
def whisperTry (rate chunk : ℕ) (d : ℚ) (openRes : Except String ℕ)
    (reads : ℕ → Except String (List ℤ))
    (tr : List ℚ → TranscribeOpts → Except String String)
    (st : Option ℕ) : Except String String × Option ℕ × ℕ :=
  match recordAudio rate chunk d openRes reads st with
  | (Except.error e, st', op) => (Except.error e, st', op)
  | (Except.ok audio, st', op) =>
    match tr audio listenOpts with
    | Except.error e => (Except.error e, st', op)
    | Except.ok text => (Except.ok (pyStrip text), st', op)

/-- `WhisperRecognizer.listen` (lines 66-84): the `try` block, with any
exception caught, printed with a traceback to the console (not the log
sink), and turned into `""` (lines 80-84). -/
def whisperListen (rate chunk : ℕ) (d : ℚ) (openRes : Except String ℕ)
    (reads : ℕ → Except String (List ℤ))
    (tr : List ℚ → TranscribeOpts → Except String String)
    (st : Option ℕ) : String × Option ℕ × ℕ :=
  match whisperTry rate chunk d openRes reads tr st with
  | (Except.error _, st', op) => ("", st', op)
  | (Except.ok text, st', op) => (text, st', op)

/-- One line of the log sink `logs/speech.log`. -/
structure LogRecord where
  level : ℕ
  msg : String
deriving DecidableEq

/-- The process-wide logger named "SpeechHandler"
(`logging.getLogger("SpeechHandler")`, line 106): its effective level,
its attached file handlers (all writing to the same `logs/speech.log`,
so only their number matters) and the lines written to that sink. -/
structure LoggerState where
  level : ℕ
  handlers : ℕ
  sink : List LogRecord
deriving DecidableEq

/-- The logger as first obtained in a fresh process: no handlers,
effective level WARNING (30), empty sink. -/
def logStart : LoggerState :=
  { level := 30, handlers := 0, sink := [] }

/-- Emission of one record: if the record's level passes the logger's
level, every attached handler appends the line to the sink. -/
def logEmit (lvl : ℕ) (m : String) (L : LoggerState) : LoggerState :=
  if L.level ≤ lvl then
    { L with sink := L.sink ++ List.replicate L.handlers { level := lvl, msg := m } }
  else L

/-- `SpeechHandler._setup_logging` (lines 102-113): sets the shared
logger's level to INFO and appends one more `FileHandler` for
`logs/speech.log`, never removing existing ones. -/
def setupLogging (L : LoggerState) : LoggerState :=
  { L with level := 20, handlers := L.handlers + 1 }

/-- `SpeechHandler.__init__` (lines 89-100): `_setup_logging` then
`logger.info("Speech Handler initialized")`. -/
def handlerInit (L : LoggerState) : LoggerState :=
  logEmit 20 "Speech Handler initialized" (setupLogging L)

/-- `k` successive `SpeechHandler` constructions in one process. -/
def initMany : ℕ → LoggerState → LoggerState
  | 0, L => L
  | k + 1, L => initMany k (handlerInit L)

/-- `SpeechHandler.listen` (lines 115-124): log start, delegate to the
wrapped recognizer (`recRes` is its result, or the exception it
raised), log the heard text, and catch any exception into an
error-level log line and `""`. -/
def speechHandlerListen (recRes : Except String String) (L : LoggerState) :
    String × LoggerState :=
  let L1 := logEmit 20 "Starting to listen..." L
  match recRes with
  | Except.ok text => (text, logEmit 20 ("Heard: " ++ text) L1)
  | Except.error e => ("", logEmit 40 ("Error while listening: " ++ e) L1)

/-- A `SpeechHandler` wrapping a `WhisperRecognizer`: the composed
`listen()` call.  `WhisperRecognizer.listen` never raises, so the
handler always receives an `Except.ok`. -/
def fullListen (rate chunk : ℕ) (d : ℚ) (openRes : Except String ℕ)
    (reads : ℕ → Except String (List ℤ))
    (tr : List ℚ → TranscribeOpts → Except String String)
    (st : Option ℕ) (L : LoggerState) :
    String × Option ℕ × ℕ × LoggerState :=
  match whisperListen rate chunk d openRes reads tr st with
  | (text, st', op) =>
    match speechHandlerListen (Except.ok text) L with
    | (out, L') => (out, st', op, L')

/-- Number of error-level lines in the log sink. -/
def errorCount (L : LoggerState) : ℕ :=
  (L.sink.filter fun r => r.level == 40).length

/-- Behaviour of the teardown collaborators: results of
`stream.stop_stream()` and `stream.close()`. -/
structure DelBehaviour where
  stopRes : Except String Unit
  closeRes : Except String Unit

/-- Which teardown calls `__del__` reached, and the exception escaping
it, if any. -/
structure DelEffects where
  calledStop : Bool
  calledClose : Bool
  calledTerminate : Bool
  escaped : Option String
deriving DecidableEq

/-- `WhisperRecognizer.__del__` (lines 35-40): if `self.stream` is set,
`stop_stream()` then `close()` then `audio.terminate()`, with no
exception handling — a raising call aborts the rest of the body. -/
def runDel (st : Option ℕ) (b : DelBehaviour) : DelEffects :=
  match st with
  | none =>
    { calledStop := false, calledClose := false, calledTerminate := true,
      escaped := none }
  | some _ =>
    match b.stopRes with
    | Except.error e =>
      { calledStop := true, calledClose := false, calledTerminate := false,
        escaped := some e }
    | Except.ok _ =>
      match b.closeRes with
      | Except.error e =>
        { calledStop := true, calledClose := true, calledTerminate := false,
          escaped := some e }
      | Except.ok _ =>
        { calledStop := true, calledClose := true, calledTerminate := true,
          escaped := none }

/-- A trace of `k` successive `listen()` calls on one
`WhisperRecognizer`, starting from the freshly constructed state
(`self.stream = None`, no `audio.open` performed).  `reads` gives the
device's behaviour per call and per loop iteration; the trace records
the stream state and the running total of `audio.open` calls. -/
def listenTrace (rate chunk : ℕ) (d : ℚ) (openRes : Except String ℕ)
    (reads : ℕ → ℕ → Except String (List ℤ))
    (tr : List ℚ → TranscribeOpts → Except String String) :
    ℕ → Option ℕ × ℕ
  | 0 => (none, 0)
  | k + 1 =>
    match listenTrace rate chunk d openRes reads tr k with
    | (st, op) =>
      match whisperListen rate chunk d openRes (reads k) tr st with
      | (_, st', dop) => (st', op + dop)

/-! ### Helper lemmas -/

lemma lt_div_succ_mul (a b : ℕ) (hb : 0 < b) : a < (a / b + 1) * b := by
  calc a = b * (a / b) + a % b := (Nat.div_add_mod a b).symm
    _ < b * (a / b) + b := Nat.add_lt_add_left (Nat.mod_lt a hb) _
    _ = (a / b + 1) * b := by ring

/-- For a nonnegative rational, Python truncation `int(q)` is the floor:
it is nonnegative and satisfies `pyInt q ≤ q < pyInt q + 1`. -/
lemma pyInt_spec {q : ℚ} (h : 0 ≤ q) :
    0 ≤ pyInt q ∧ (pyInt q : ℚ) ≤ q ∧ q < pyInt q + 1 := by
  have hn : 0 ≤ q.num := Rat.num_nonneg.mpr h
  rcases eq_or_lt_of_le hn with h0 | hpos
  · have hq0 : q = 0 := Rat.num_eq_zero.mp h0.symm
    subst hq0
    simp [pyInt]
  · have hsign : Int.sign q.num = 1 := Int.sign_eq_one_iff_pos.mpr hpos
    have hden : (0 : ℚ) < (q.den : ℚ) := by exact_mod_cast q.pos
    have hnum : ((q.num.natAbs : ℚ)) = (q.num : ℚ) := by
      rw [Int.cast_natAbs]
      exact_mod_cast abs_of_nonneg hn
    have hq : (q.num : ℚ) / (q.den : ℚ) = q := Rat.num_div_den q
    set m : ℕ := q.num.natAbs / q.den with hm
    have hA : (m : ℚ) * (q.den : ℚ) ≤ (q.num.natAbs : ℚ) := by
      exact_mod_cast Nat.div_mul_le_self q.num.natAbs q.den
    have hB : (q.num.natAbs : ℚ) < ((m : ℚ) + 1) * (q.den : ℚ) := by
      exact_mod_cast lt_div_succ_mul q.num.natAbs q.den q.pos
    have hpy : pyInt q = (m : ℤ) := by
      rw [pyInt, hsign, one_mul]
    refine ⟨by rw [hpy]; exact_mod_cast Nat.zero_le m, ?_, ?_⟩
    · rw [hpy]
      push_cast
      rw [← hq, le_div_iff₀ hden]
      calc (m : ℚ) * (q.den : ℚ) ≤ (q.num.natAbs : ℚ) := hA
        _ = (q.num : ℚ) := hnum
    · rw [hpy]
      push_cast
      rw [← hq, div_lt_iff₀ hden]
      calc (q.num : ℚ) = (q.num.natAbs : ℚ) := hnum.symm
        _ < ((m : ℚ) + 1) * (q.den : ℚ) := hB

/-- Uniqueness: a nonnegative integer bracketing `q` is `pyInt q`. -/
lemma pyInt_eq_of {q : ℚ} {n : ℤ} (h0 : 0 ≤ n) (h1 : (n : ℚ) ≤ q) (h2 : q < n + 1) :
    pyInt q = n := by
  have hq : 0 ≤ q := le_trans (by exact_mod_cast h0) h1
  obtain ⟨ha, hb, hc⟩ := pyInt_spec hq
  have l1 : pyInt q < n + 1 := by
    have : (pyInt q : ℚ) < n + 1 := lt_of_le_of_lt hb h2
    exact_mod_cast this
  have l2 : n < pyInt q + 1 := by
    have : (n : ℚ) < pyInt q + 1 := lt_of_le_of_lt h1 hc
    exact_mod_cast this
  omega

/-- Evaluation rule for the loop bound. -/
lemma loopCount_eq_of {rate chunk : ℕ} {d : ℚ} {n : ℕ}
    (h1 : (n : ℚ) ≤ (rate : ℚ) / (chunk : ℚ) * d)
    (h2 : (rate : ℚ) / (chunk : ℚ) * d < n + 1) :
    loopCount rate chunk d = n := by
  have h : pyInt ((rate : ℚ) / (chunk : ℚ) * d) = (n : ℤ) :=
    pyInt_eq_of (by exact_mod_cast Nat.zero_le n) (by exact_mod_cast h1)
      (by exact_mod_cast h2)
  rw [loopCount, h]
  exact Int.toNat_natCast n

lemma toOption_eq_some {α : Type} {e : Except String α} {x : α} :
    e.toOption = some x ↔ e = Except.ok x := by
  cases e <;> simp [Except.toOption]

/-- If every read raises, the loop keeps no frame. -/
lemma recordFrames_all_fail (reads : ℕ → Except String (List ℤ)) (n : ℕ)
    (h : ∀ i, (reads i).toOption = none) : recordFrames reads n = [] := by
  rw [recordFrames, List.filterMap_eq_nil_iff]
  exact fun i _ => h i

/-- Every kept frame comes from a successful read. -/
lemma mem_recordFrames {reads : ℕ → Except String (List ℤ)} {n : ℕ} {c : List ℤ}
    (h : c ∈ recordFrames reads n) : ∃ i, reads i = Except.ok c := by
  rw [recordFrames, List.mem_filterMap] at h
  obtain ⟨i, _, hi⟩ := h
  exact ⟨i, toOption_eq_some.mp hi⟩

/-- If every read succeeds, the loop keeps one frame per iteration. -/
lemma recordFrames_all_ok (reads : ℕ → Except String (List ℤ)) (n : ℕ)
    (h : ∀ i, ∃ c, reads i = Except.ok c) :
    (recordFrames reads n).length = n := by
  induction n with
  | zero => rfl
  | succ m ih =>
    rw [recordFrames, List.range_succ, List.filterMap_append, List.length_append]
    rw [recordFrames] at ih
    obtain ⟨c, hc⟩ := h m
    rw [ih]
    simp [hc, Except.toOption]

lemma flatten_length_of_uniform {chunk : ℕ} :
    ∀ (frames : List (List ℤ)), (∀ c ∈ frames, c.length = chunk) →
      (List.flatten frames).length = frames.length * chunk := by
  intro frames
  induction frames with
  | nil => intro _; simp
  | cons f fs ih =>
    intro h
    rw [List.flatten_cons, List.length_append, List.length_cons,
      ih fun c hc => h c (List.mem_cons_of_mem f hc), h f (List.mem_cons_self f fs)]
    ring

/-- If `_record_audio` raises, `WhisperRecognizer.listen` returns `""`
(whatever the stream state and the open behaviour). -/
lemma whisperListen_fst_of_error (rate chunk : ℕ) (d : ℚ)
    (openRes : Except String ℕ) (reads : ℕ → Except String (List ℤ))
    (tr : List ℚ → TranscribeOpts → Except String String) (st : Option ℕ)
    (e : String) (hrl : recordLoop rate chunk d reads = Except.error e) :
    (whisperListen rate chunk d openRes reads tr st).1 = "" := by
  rcases st with _ | s
  · rcases openRes with e' | hnd
    · rfl
    · simp [whisperListen, whisperTry, recordAudio, hrl]
  · simp [whisperListen, whisperTry, recordAudio, hrl]

/-- Emitting below the error level does not change the error count. -/
lemma errorCount_logEmit (lvl : ℕ) (m : String) (L : LoggerState) (h : lvl ≠ 40) :
    errorCount (logEmit lvl m L) = errorCount L := by
  rw [logEmit]
  split
  · rw [errorCount, errorCount, List.filter_append]
    have hrep : List.filter (fun r => r.level == 40)
        (List.replicate L.handlers ({ level := lvl, msg := m } : LogRecord)) = [] := by
      rw [List.filter_eq_nil_iff]
      intro r hr
      rw [List.eq_of_mem_replicate hr]
      simpa using h
    rw [hrep, List.append_nil]
  · rfl

/-! ### Claims -/

/-- C1: for every recognizer state and every behaviour of the capture
device and the transcription model, `WhisperRecognizer.listen` returns a
string and never propagates an exception: whenever its `try` block
raises (any internal failure during recording or transcription) the
result is `""`; likewise `SpeechHandler.listen` returns a string and on
any exception from the recognizer layer returns `""`. -/
theorem c1_listen_never_raises (rate chunk : ℕ) (d : ℚ)
    (openRes : Except String ℕ) (reads : ℕ → Except String (List ℤ))
    (tr : List ℚ → TranscribeOpts → Except String String) (st : Option ℕ)
    (recRes : Except String String) (L : LoggerState) (e₁ e₂ : String)
    (h1 : (whisperTry rate chunk d openRes reads tr st).1 = Except.error e₁)
    (h2 : recRes = Except.error e₂) :
    (whisperListen rate chunk d openRes reads tr st).1 = "" ∧
    (speechHandlerListen recRes L).1 = "" := by
  constructor
  · rcases hEq : whisperTry rate chunk d openRes reads tr st with ⟨r, st', op⟩
    rw [hEq] at h1
    simp only at h1
    subst h1
    simp [whisperListen, hEq]
  · subst h2
    rfl

/-- Witness for C1 at a concrete failing device, model and handler. -/
theorem c1_witness :
    (whisperListen 16000 1024 5 (Except.ok 0) (fun _ => Except.error "mic broke")
      (fun _ _ => Except.ok "never reached") none).1 = "" ∧
    (speechHandlerListen (Except.error "boom") logStart).1 = "" := by
  refine c1_listen_never_raises 16000 1024 5 (Except.ok 0)
    (fun _ => Except.error "mic broke") (fun _ _ => Except.ok "never reached") none
    (Except.error "boom") logStart "need at least one array to concatenate" "boom"
    ?_ rfl
  have hframes : recordFrames (fun _ => Except.error "mic broke")
      (loopCount 16000 1024 5) = [] :=
    recordFrames_all_fail _ _ fun _ => rfl
  simp [whisperTry, recordAudio, recordLoop, hframes, npConcatenate]

/-- C2 counterexample: when every chunk read raises, `_record_audio`
does not return an empty buffer — `np.concatenate` on the empty frame
list raises `ValueError`. -/
theorem c2_counterexample :
    recordLoop 16000 1024 5 (fun _ => Except.error "device failure") =
      Except.error "need at least one array to concatenate" := by
  have hframes : recordFrames (fun _ => Except.error "device failure")
      (loopCount 16000 1024 5) = [] :=
    recordFrames_all_fail _ _ fun _ => rfl
  simp [recordLoop, hframes, npConcatenate]

/-- C2 (amended): if every per-chunk read fails, `_record_audio` raises
(concatenating the empty frame list fails) instead of returning an
empty buffer; `listen()` catches that exception and returns `""`. -/
theorem c2_all_reads_fail (rate chunk : ℕ) (d : ℚ)
    (openRes : Except String ℕ) (reads : ℕ → Except String (List ℤ))
    (tr : List ℚ → TranscribeOpts → Except String String) (st : Option ℕ)
    (hfail : ∀ i, (reads i).toOption = none) :
    recordLoop rate chunk d reads =
      Except.error "need at least one array to concatenate" ∧
    (whisperListen rate chunk d openRes reads tr st).1 = "" := by
  have hrl : recordLoop rate chunk d reads =
      Except.error "need at least one array to concatenate" := by
    rw [recordLoop, recordFrames_all_fail reads _ hfail]
    rfl
  exact ⟨hrl, whisperListen_fst_of_error rate chunk d openRes reads tr st _ hrl⟩

/-- Witness for C2 (amended) at a concrete always-failing device. -/
theorem c2_witness :
    recordLoop 16000 1024 5 (fun _ => Except.error "overflow") =
      Except.error "need at least one array to concatenate" ∧
    (whisperListen 16000 1024 5 (Except.ok 0) (fun _ => Except.error "overflow")
      (fun _ _ => Except.ok "never reached") none).1 = "" :=
  c2_all_reads_fail 16000 1024 5 (Except.ok 0) (fun _ => Except.error "overflow")
    (fun _ _ => Except.ok "never reached") none fun _ => rfl

/-- C3 counterexample: in the end-to-end scenario where the device
raises on every chunk read, `SpeechHandler.listen()` does return `""`,
but zero (not one) error-level lines reach the log sink: the recognizer
prints the failure to the console and returns `""` normally, so the
handler only logs two info-level lines. -/
theorem c3_counterexample :
    (fullListen 16000 1024 5 (Except.ok 0) (fun _ => Except.error "read failed")
      (fun _ _ => Except.ok "never reached") none (handlerInit logStart)).1 = "" ∧
    errorCount (fullListen 16000 1024 5 (Except.ok 0)
      (fun _ => Except.error "read failed") (fun _ _ => Except.ok "never reached")
      none (handlerInit logStart)).2.2.2 = 0 ∧
    errorCount (fullListen 16000 1024 5 (Except.ok 0)
      (fun _ => Except.error "read failed") (fun _ _ => Except.ok "never reached")
      none (handlerInit logStart)).2.2.2 ≠ 1 := by
  have hframes : recordFrames (fun _ => Except.error "read failed")
      (loopCount 16000 1024 5) = [] :=
    recordFrames_all_fail _ _ fun _ => rfl
  have hrl : recordLoop 16000 1024 5 (fun _ => Except.error "read failed") =
      Except.error "need at least one array to concatenate" := by
    simp [recordLoop, hframes, npConcatenate]
  refine ⟨?_, ?_, ?_⟩ <;>
    simp [fullListen, whisperListen, whisperTry, recordAudio, hrl,
      speechHandlerListen, handlerInit, setupLogging, logEmit, logStart, errorCount]

/-- C3 (amended): with the device raising on every chunk read,
`SpeechHandler.listen()` returns `""` and no error-level line is added
to the log sink (the failure is printed to the console by the
recognizer, not logged). -/
theorem c3_all_reads_fail_no_error_line (rate chunk : ℕ) (d : ℚ)
    (openRes : Except String ℕ) (reads : ℕ → Except String (List ℤ))
    (tr : List ℚ → TranscribeOpts → Except String String) (st : Option ℕ)
    (L : LoggerState) (hfail : ∀ i, (reads i).toOption = none) :
    (fullListen rate chunk d openRes reads tr st L).1 = "" ∧
    errorCount (fullListen rate chunk d openRes reads tr st L).2.2.2 =
      errorCount L := by
  have hrl : recordLoop rate chunk d reads =
      Except.error "need at least one array to concatenate" := by
    rw [recordLoop, recordFrames_all_fail reads _ hfail]
    rfl
  have hw : (whisperListen rate chunk d openRes reads tr st).1 = "" :=
    whisperListen_fst_of_error rate chunk d openRes reads tr st _ hrl
  rcases hwl : whisperListen rate chunk d openRes reads tr st with ⟨text, st', op⟩
  rw [hwl] at hw
  simp only at hw
  subst hw
  constructor
  · simp [fullListen, hwl, speechHandlerListen]
  · have hL : (fullListen rate chunk d openRes reads tr st L).2.2.2 =
        (speechHandlerListen (Except.ok "") L).2 := by
      simp [fullListen, hwl]
    rw [hL]
    have hsh : (speechHandlerListen (Except.ok "") L).2 =
        logEmit 20 ("Heard: " ++ "") (logEmit 20 "Starting to listen..." L) := by
      simp [speechHandlerListen]
    rw [hsh, errorCount_logEmit 20 _ _ (by norm_num),
      errorCount_logEmit 20 _ _ (by norm_num)]

/-- Witness for C3 (amended) at a concrete always-failing device. -/
theorem c3_witness :
    (fullListen 16000 1024 5 (Except.ok 0) (fun _ => Except.error "overflow")
      (fun _ _ => Except.ok "never reached") none logStart).1 = "" ∧
    errorCount (fullListen 16000 1024 5 (Except.ok 0)
      (fun _ => Except.error "overflow") (fun _ _ => Except.ok "never reached")
      none logStart).2.2.2 = errorCount logStart :=
  c3_all_reads_fail_no_error_line 16000 1024 5 (Except.ok 0)
    (fun _ => Except.error "overflow") (fun _ _ => Except.ok "never reached")
    none logStart fun _ => rfl

lemma npConcatenate_ok {fr : List (List ℤ)} {s : List ℤ}
    (h : npConcatenate fr = Except.ok s) : s = fr.flatten := by
  cases fr with
  | nil => exact absurd h (by simp [npConcatenate])
  | cons f fs =>
    rw [npConcatenate] at h
    exact (Except.ok.injEq _ _).mp h.symm

/-- C4: for every sequence of successfully read chunks of signed 16-bit
samples, every sample of the buffer produced by `_record_audio` (each
raw value divided by `32768.0`) lies in `[-1, 1]`; and if every input
sample is zero, every normalized output sample is zero. -/
theorem c4_normalization_bounds (rate chunk : ℕ) (d : ℚ)
    (reads : ℕ → Except String (List ℤ))
    (hrange : ∀ i c, reads i = Except.ok c → ∀ s ∈ c, -32768 ≤ s ∧ s < 32768)
    (out : List ℚ) (hout : recordLoop rate chunk d reads = Except.ok out) :
    (∀ x ∈ out, -1 ≤ x ∧ x ≤ 1) ∧
    ((∀ i c, reads i = Except.ok c → ∀ s ∈ c, s = 0) → ∀ x ∈ out, x = 0) := by
  rw [recordLoop] at hout
  rcases hnp : npConcatenate (recordFrames reads (loopCount rate chunk d))
    with e | samples
  · rw [hnp] at hout
    exact absurd hout (by simp)
  · rw [hnp] at hout
    have hns : normalizeAudio samples = out := (Except.ok.injEq _ _).mp hout
    subst hns
    have hmem : ∀ s ∈ samples, ∃ i c, reads i = Except.ok c ∧ s ∈ c := by
      intro s hs
      rw [npConcatenate_ok hnp, List.mem_flatten] at hs
      obtain ⟨c, hc, hsc⟩ := hs
      obtain ⟨i, hi⟩ := mem_recordFrames hc
      exact ⟨i, c, hi, hsc⟩
    constructor
    · intro x hx
      rw [normalizeAudio, List.mem_map] at hx
      obtain ⟨s, hs, rfl⟩ := hx
      obtain ⟨i, c, hi, hsc⟩ := hmem s hs
      obtain ⟨hlo, hhi⟩ := hrange i c hi s hsc
      constructor
      · rw [le_div_iff₀ (by norm_num : (0 : ℚ) < 32768)]
        calc (-1 : ℚ) * 32768 = ((-32768 : ℤ) : ℚ) := by norm_num
          _ ≤ (s : ℚ) := by exact_mod_cast hlo
      · rw [div_le_one (by norm_num : (0 : ℚ) < 32768)]
        calc (s : ℚ) ≤ ((32768 : ℤ) : ℚ) := by exact_mod_cast hhi.le
          _ = 32768 := by norm_num
    · intro hzero x hx
      rw [normalizeAudio, List.mem_map] at hx
      obtain ⟨s, hs, rfl⟩ := hx
      obtain ⟨i, c, hi, hsc⟩ := hmem s hs
      rw [hzero i c hi s hsc]
      norm_num

/-- Witness for C4 at a concrete in-range device. -/
theorem c4_witness :
    (-1 ≤ ((0 : ℤ) : ℚ) / 32768 ∧ ((0 : ℤ) : ℚ) / 32768 ≤ 1) ∧
    (-1 ≤ ((5 : ℤ) : ℚ) / 32768 ∧ ((5 : ℤ) : ℚ) / 32768 ≤ 1) ∧
    (-1 ≤ ((-32768 : ℤ) : ℚ) / 32768 ∧ ((-32768 : ℤ) : ℚ) / 32768 ≤ 1) := by
  have hlc : loopCount 16000 1024 (1 / 10) = 1 :=
    loopCount_eq_of (by norm_num) (by norm_num)
  have hout : recordLoop 16000 1024 (1 / 10) (fun _ => Except.ok [0, 5, -32768]) =
      Except.ok (normalizeAudio [0, 5, -32768]) := by
    rw [recordLoop, hlc]
    rfl
  have hrange : ∀ i c, (fun _ => Except.ok [0, 5, -32768] :
      ℕ → Except String (List ℤ)) i = Except.ok c → ∀ s ∈ c, -32768 ≤ s ∧ s < 32768 := by
    intro i c hc
    have hc' : [0, 5, -32768] = c := (Except.ok.injEq _ _).mp hc
    subst hc'
    intro s hs
    simp only [List.mem_cons, List.not_mem_nil, or_false] at hs
    rcases hs with rfl | rfl | rfl <;> exact ⟨by norm_num, by norm_num⟩
  have h := (c4_normalization_bounds 16000 1024 (1 / 10)
    (fun _ => Except.ok [0, 5, -32768]) hrange (normalizeAudio [0, 5, -32768]) hout).1
  exact ⟨h _ (by simp [normalizeAudio]), h _ (by simp [normalizeAudio]),
    h _ (by simp [normalizeAudio])⟩

/-- C5 counterexample: at the configured duration `D = 1/16` (0.0625 s,
a positive duration) all chunk reads succeed yet `_record_audio` does
not return a buffer at all: `int(RATE / CHUNK * D) = 0`, the loop runs
zero times and `np.concatenate` raises on the empty frame list. -/
theorem c5_counterexample :
    recordLoop 16000 1024 (1 / 16) (fun _ => Except.ok (List.replicate 1024 0)) =
      Except.error "need at least one array to concatenate" := by
  have hlc : loopCount 16000 1024 (1 / 16) = 0 :=
    loopCount_eq_of (by norm_num) (by norm_num)
  rw [recordLoop, hlc]
  rfl

/-- C5 (amended): for every configured duration `D > 0` whose loop
bound `int(RATE / CHUNK * D)` is at least one, when all chunk reads
succeed and each yields `CHUNK` samples, `_record_audio` returns a
buffer of exactly `int(RATE / CHUNK * D) * CHUNK` samples, which
differs from `RATE * D` by less than one chunk. -/
theorem c5_buffer_length (rate chunk : ℕ) (d : ℚ)
    (reads : ℕ → Except String (List ℤ))
    (hchunk : 0 < chunk) (hd : 0 < d)
    (hn : 1 ≤ loopCount rate chunk d)
    (hreads : ∀ i, ∃ c, reads i = Except.ok c ∧ c.length = chunk) :
    ∃ out, recordLoop rate chunk d reads = Except.ok out ∧
      out.length = loopCount rate chunk d * chunk ∧
      |(out.length : ℚ) - (rate : ℚ) * d| < (chunk : ℚ) := by
  set n := loopCount rate chunk d with hn_def
  have hflen : (recordFrames reads n).length = n :=
    recordFrames_all_ok reads n fun i => ⟨(hreads i).choose, (hreads i).choose_spec.1⟩
  have huni : ∀ c ∈ recordFrames reads n, c.length = chunk := by
    intro c hc
    obtain ⟨i, hi⟩ := mem_recordFrames hc
    obtain ⟨c', hc', hlen⟩ := hreads i
    rw [hi] at hc'
    injection hc' with hcc
    rw [hcc]
    exact hlen
  rcases hfr : recordFrames reads n with _ | ⟨f, fs⟩
  · rw [hfr] at hflen
    simp at hflen
    omega
  · have hcat : npConcatenate (recordFrames reads n) =
        Except.ok (List.flatten (f :: fs)) := by
      rw [hfr, npConcatenate]
    refine ⟨normalizeAudio (List.flatten (f :: fs)), ?_, ?_, ?_⟩
    · rw [recordLoop, ← hn_def, hcat]
    · rw [normalizeAudio, List.length_map,
        flatten_length_of_uniform (f :: fs) (hfr ▸ huni), ← hfr, hflen]
    · have hlen : (normalizeAudio (List.flatten (f :: fs))).length = n * chunk := by
        rw [normalizeAudio, List.length_map,
          flatten_length_of_uniform (f :: fs) (hfr ▸ huni), ← hfr, hflen]
      rw [hlen]
      have hq0 : 0 ≤ (rate : ℚ) / (chunk : ℚ) * d :=
        mul_nonneg (div_nonneg (Nat.cast_nonneg rate) (Nat.cast_nonneg chunk)) hd.le
      obtain ⟨hge, hle, hlt⟩ := pyInt_spec hq0
      have hcast : (n : ℚ) = (pyInt ((rate : ℚ) / (chunk : ℚ) * d) : ℚ) := by
        rw [hn_def, loopCount]
        exact_mod_cast congrArg (Int.cast : ℤ → ℚ) (Int.toNat_of_nonneg hge)
      have hchunkQ : (0 : ℚ) < (chunk : ℚ) := by exact_mod_cast hchunk
      have hqc : ((rate : ℚ) / (chunk : ℚ) * d) * (chunk : ℚ) = (rate : ℚ) * d := by
        field_simp
      rw [abs_lt]
      constructor
      · have h1 : (rate : ℚ) / (chunk : ℚ) * d < (n : ℚ) + 1 := by
          rw [hcast]; exact hlt
        have h2 : ((rate : ℚ) / (chunk : ℚ) * d) * (chunk : ℚ) <
            ((n : ℚ) + 1) * (chunk : ℚ) := by
          exact mul_lt_mul_of_pos_right h1 hchunkQ
        rw [hqc] at h2
        push_cast
        nlinarith
      · have h1 : (n : ℚ) ≤ (rate : ℚ) / (chunk : ℚ) * d := by
          rw [hcast]; exact hle
        have h2 : (n : ℚ) * (chunk : ℚ) ≤
            ((rate : ℚ) / (chunk : ℚ) * d) * (chunk : ℚ) :=
          mul_le_mul_of_nonneg_right h1 hchunkQ.le
        rw [hqc] at h2
        push_cast
        nlinarith

/-- Witness for C5 (amended) at `D = 1` with an ideal device. -/
theorem c5_witness :
    1 ≤ loopCount 16000 1024 1 ∧
    ∃ out, recordLoop 16000 1024 1 (fun _ => Except.ok (List.replicate 1024 0)) =
        Except.ok out ∧
      out.length = loopCount 16000 1024 1 * 1024 ∧
      |(out.length : ℚ) - ((16000 : ℕ) : ℚ) * 1| < ((1024 : ℕ) : ℚ) := by
  have hlc : loopCount 16000 1024 1 = 15 :=
    loopCount_eq_of (by norm_num) (by norm_num)
  refine ⟨by rw [hlc]; norm_num, ?_⟩
  exact c5_buffer_length 16000 1024 1 (fun _ => Except.ok (List.replicate 1024 0))
    (by norm_num) (by norm_num) (by rw [hlc]; norm_num)
    (fun i => ⟨List.replicate 1024 0, rfl, by rw [List.length_replicate]⟩)

/-- C9: for every positive duration with `RATE / CHUNK * D < 1`, the
chunk-reading loop runs zero times, `_record_audio` raises on the empty
concatenation, and `listen()` returns `""` regardless of the device's
or the model's behaviour. -/
theorem c9_tiny_duration_empty (rate chunk : ℕ) (d : ℚ)
    (openRes : Except String ℕ) (reads : ℕ → Except String (List ℤ))
    (tr : List ℚ → TranscribeOpts → Except String String) (st : Option ℕ)
    (hd : 0 < d) (hlt : (rate : ℚ) / (chunk : ℚ) * d < 1) :
    loopCount rate chunk d = 0 ∧
    recordLoop rate chunk d reads =
      Except.error "need at least one array to concatenate" ∧
    (whisperListen rate chunk d openRes reads tr st).1 = "" := by
  have hq0 : 0 ≤ (rate : ℚ) / (chunk : ℚ) * d :=
    mul_nonneg (div_nonneg (Nat.cast_nonneg rate) (Nat.cast_nonneg chunk)) hd.le
  have hlc : loopCount rate chunk d = 0 :=
    loopCount_eq_of (by exact_mod_cast hq0) (by push_cast; linarith)
  have hrl : recordLoop rate chunk d reads =
      Except.error "need at least one array to concatenate" := by
    rw [recordLoop, hlc]
    rfl
  exact ⟨hlc, hrl,
    whisperListen_fst_of_error rate chunk d openRes reads tr st _ hrl⟩

/-- Witness for C9 at `D = 1/100` with a healthy device and model. -/
theorem c9_witness :
    loopCount 16000 1024 (1 / 100) = 0 ∧
    recordLoop 16000 1024 (1 / 100) (fun _ => Except.ok [3]) =
      Except.error "need at least one array to concatenate" ∧
    (whisperListen 16000 1024 (1 / 100) (Except.ok 0) (fun _ => Except.ok [3])
      (fun _ _ => Except.ok "hi") none).1 = "" :=
  c9_tiny_duration_empty 16000 1024 (1 / 100) (Except.ok 0) (fun _ => Except.ok [3])
    (fun _ _ => Except.ok "hi") none (by norm_num) (by norm_num)

/-- A `listen()` call on a recognizer with no stream yet, whose
`audio.open` succeeds, stores the opened handle and performs exactly
one `audio.open` call. -/
lemma whisperListen_snd_none (rate chunk : ℕ) (d : ℚ) (h : ℕ)
    (reads : ℕ → Except String (List ℤ))
    (tr : List ℚ → TranscribeOpts → Except String String) :
    (whisperListen rate chunk d (Except.ok h) reads tr none).2 = (some h, 1) := by
  rcases hrl : recordLoop rate chunk d reads with e | audio
  · simp [whisperListen, whisperTry, recordAudio, hrl]
  · rcases htr : tr audio listenOpts with e2 | t <;>
      simp [whisperListen, whisperTry, recordAudio, hrl, htr]

/-- A `listen()` call on a recognizer that already holds a stream
handle keeps that handle and performs no `audio.open` call. -/
lemma whisperListen_snd_some (rate chunk : ℕ) (d : ℚ)
    (openRes : Except String ℕ) (h : ℕ)
    (reads : ℕ → Except String (List ℤ))
    (tr : List ℚ → TranscribeOpts → Except String String) :
    (whisperListen rate chunk d openRes reads tr (some h)).2 = (some h, 0) := by
  rcases hrl : recordLoop rate chunk d reads with e | audio
  · simp [whisperListen, whisperTry, recordAudio, hrl]
  · rcases htr : tr audio listenOpts with e2 | t <;>
      simp [whisperListen, whisperTry, recordAudio, hrl, htr]

/-- C6: on one `WhisperRecognizer` whose `audio.open` yields handle
`h`, any sequence of `k ≥ 1` `listen()` calls — whatever the device
reads and the model return — opens the device stream exactly once, on
the first call, and every later call reuses the same handle. -/
theorem c6_stream_opened_once (rate chunk : ℕ) (d : ℚ) (h : ℕ)
    (reads : ℕ → ℕ → Except String (List ℤ))
    (tr : List ℚ → TranscribeOpts → Except String String)
    (k : ℕ) (hk : 1 ≤ k) :
    listenTrace rate chunk d (Except.ok h) reads tr k = (some h, 1) := by
  induction k with
  | zero => exact absurd hk (by norm_num)
  | succ m ih =>
    rcases Nat.eq_zero_or_pos m with h0 | hpos
    · subst h0
      have hs := whisperListen_snd_none rate chunk d h (reads 0) tr
      show ((whisperListen rate chunk d (Except.ok h) (reads 0) tr none).2.1,
          0 + (whisperListen rate chunk d (Except.ok h) (reads 0) tr none).2.2) =
        (some h, 1)
      rw [hs]
      rfl
    · have ih' := ih hpos
      have hs := whisperListen_snd_some rate chunk d (Except.ok h) h (reads m) tr
      rw [listenTrace, ih']
      show ((whisperListen rate chunk d (Except.ok h) (reads m) tr (some h)).2.1,
          1 + (whisperListen rate chunk d (Except.ok h) (reads m) tr (some h)).2.2) =
        (some h, 1)
      rw [hs]
      rfl

/-- Witness for C6: two `listen()` calls, one open, handle 7 kept. -/
theorem c6_witness :
    listenTrace 16000 1024 5 (Except.ok 7) (fun _ _ => Except.error "noise")
      (fun _ _ => Except.ok "text") 2 = (some 7, 1) :=
  c6_stream_opened_once 16000 1024 5 7 (fun _ _ => Except.error "noise")
    (fun _ _ => Except.ok "text") 2 (by norm_num)

set_option maxRecDepth 8192 in
/-- C7: end to end with `record_seconds = 0.1`, `rate = 16000`, the
device yielding chunks of 1024 zero-samples and the model answering
`" hello "` exactly when invoked with `fp16=False`, `language='en'` and
the priming hint `"stop listening"`: `listen()` returns the trimmed
text `"hello"` (so the model was indeed invoked with those options). -/
theorem c7_end_to_end :
    (whisperListen 16000 1024 (1 / 10) (Except.ok 0)
      (fun _ => Except.ok (List.replicate 1024 0))
      (fun _ opts =>
        if opts = { fp16 := false, language := "en",
                    initial_prompt := "stop listening" } then Except.ok " hello "
        else Except.error "unexpected options")
      none).1 = "hello" := by
  have hlc : loopCount 16000 1024 (1 / 10) = 1 :=
    loopCount_eq_of (by norm_num) (by norm_num)
  have hrl : recordLoop 16000 1024 (1 / 10) (fun _ => Except.ok (List.replicate 1024 0)) =
      Except.ok (normalizeAudio (List.replicate 1024 0)) := by
    rw [recordLoop, hlc]
    rfl
  simp only [whisperListen, whisperTry, recordAudio, hrl]
  rfl

/-- C8 counterexample: if `stream.stop_stream()` itself raises during
`__del__`, the stream is not closed and the device handle is not
released — the exception aborts the rest of the teardown body. -/
theorem c8_counterexample :
    (runDel (some 0) { stopRes := Except.error "stop failed",
                       closeRes := Except.ok () }).calledTerminate = false ∧
    (runDel (some 0) { stopRes := Except.error "stop failed",
                       closeRes := Except.ok () }).calledClose = false ∧
    (runDel (some 0) { stopRes := Except.error "stop failed",
                       closeRes := Except.ok () }).escaped = some "stop failed" :=
  ⟨rfl, rfl, rfl⟩

/-- C8 (amended): on destruction, whatever the outcome of any earlier
`listen()` calls (any device and model behaviour, any number of calls),
the stream — if one is open — is stopped and closed, and the device
handle is released, provided stopping and closing themselves succeed;
if `stop_stream` or `close` raises, the remaining teardown is skipped. -/
theorem c8_teardown_after_failures (rate chunk : ℕ) (d : ℚ)
    (openRes : Except String ℕ) (reads : ℕ → ℕ → Except String (List ℤ))
    (tr : List ℚ → TranscribeOpts → Except String String)
    (k : ℕ) (b : DelBehaviour)
    (hstop : b.stopRes = Except.ok ()) (hclose : b.closeRes = Except.ok ()) :
    (runDel (listenTrace rate chunk d openRes reads tr k).1 b).calledTerminate
      = true ∧
    ∀ s, (listenTrace rate chunk d openRes reads tr k).1 = some s →
      (runDel (listenTrace rate chunk d openRes reads tr k).1 b).calledStop
          = true ∧
        (runDel (listenTrace rate chunk d openRes reads tr k).1 b).calledClose
          = true := by
  rcases hst : (listenTrace rate chunk d openRes reads tr k).1 with _ | s
  · exact ⟨rfl, fun s hs => absurd hs (by simp)⟩
  · refine ⟨?_, fun s' _ => ⟨?_, ?_⟩⟩ <;> simp [runDel, hstop, hclose]

/-- Witness for C8 (amended): one failed `listen()`, healthy teardown. -/
theorem c8_witness :
    (runDel (listenTrace 16000 1024 5 (Except.ok 3)
      (fun _ _ => Except.error "noise") (fun _ _ => Except.ok "t") 1).1
      { stopRes := Except.ok (), closeRes := Except.ok () }).calledTerminate
      = true :=
  (c8_teardown_after_failures 16000 1024 5 (Except.ok 3)
    (fun _ _ => Except.error "noise") (fun _ _ => Except.ok "t") 1
    { stopRes := Except.ok (), closeRes := Except.ok () } rfl rfl).1

lemma logEmit_sink_of_le (lvl : ℕ) (m : String) (L : LoggerState)
    (h : L.level ≤ lvl) :
    (logEmit lvl m L).sink =
      L.sink ++ List.replicate L.handlers ({ level := lvl, msg := m } : LogRecord) := by
  rw [logEmit, if_pos h]

lemma logEmit_handlers (lvl : ℕ) (m : String) (L : LoggerState) :
    (logEmit lvl m L).handlers = L.handlers := by
  rw [logEmit]
  split <;> rfl

lemma logEmit_level (lvl : ℕ) (m : String) (L : LoggerState) :
    (logEmit lvl m L).level = L.level := by
  rw [logEmit]
  split <;> rfl

lemma initMany_handlers (k : ℕ) : ∀ L, (initMany k L).handlers = L.handlers + k := by
  induction k with
  | zero => intro L; rfl
  | succ m ih =>
    intro L
    rw [initMany, ih, handlerInit, logEmit_handlers, setupLogging]
    simp only
    omega

lemma initMany_level (k : ℕ) (hk : 1 ≤ k) : ∀ L, (initMany k L).level = 20 := by
  induction k with
  | zero => exact absurd hk (by norm_num)
  | succ m ih =>
    intro L
    rcases Nat.eq_zero_or_pos m with h0 | hpos
    · subst h0
      rw [initMany, initMany, handlerInit, logEmit_level, setupLogging]
    · rw [initMany]
      exact ih hpos (handlerInit L)

/-- C10: constructing `k` `SpeechHandler`s in one process stacks `k`
file handlers on the single process-wide logger named "SpeechHandler"
(none is ever removed), so any subsequent `listen()` call writes each
of its log messages `k` times to the log sink. -/
theorem c10_duplicate_log_lines (k : ℕ) (t : String) :
    (initMany k logStart).handlers = k ∧
    (speechHandlerListen (Except.ok t) (initMany k logStart)).2.sink =
      (initMany k logStart).sink
        ++ List.replicate k ({ level := 20, msg := "Starting to listen..." } : LogRecord)
        ++ List.replicate k ({ level := 20, msg := "Heard: " ++ t } : LogRecord) := by
  have hh : (initMany k logStart).handlers = k := by
    rw [initMany_handlers]
    simp [logStart]
  refine ⟨hh, ?_⟩
  rcases Nat.eq_zero_or_pos k with rfl | hk
  · simp [initMany, speechHandlerListen, logEmit, logStart]
  · have hl : (initMany k logStart).level = 20 := initMany_level k hk logStart
    have h2 : (speechHandlerListen (Except.ok t) (initMany k logStart)).2 =
        logEmit 20 ("Heard: " ++ t)
          (logEmit 20 "Starting to listen..." (initMany k logStart)) := by
      simp [speechHandlerListen]
    rw [h2,
      logEmit_sink_of_le 20 _ _ (by rw [logEmit_level, hl]),
      logEmit_sink_of_le 20 _ _ (le_of_eq hl),
      logEmit_handlers, hh]

end Orchestrator
